import Mathlib

/-!
Verification of the match-observer pipeline (`src/observer`) against its
specification.  The Python sources are shallowly embedded: dataclasses become
structures, mutating methods become functions from state to state, `time.time()`
values become rationals passed in explicitly, and exceptions become explicit
error values.  File contents of the durable queue file and the SQLite store are
modelled as in-memory values threaded through the operations.
-/

namespace Observer

/-! ## models.py — QueueItem -/

/-- QueueItem from models.py: `match_id`, `added_at`, `retry_count` (default 0),
`last_retry` (default None), `priority` (default 0, comment: higher = more
priority).  Timestamps (`time.time()` floats) are modelled as rationals. -/
structure QueueItem where
  match_id : Int
  added_at : Rat
  retry_count : Nat
  last_retry : Option Rat
  priority : Int
deriving Repr, DecidableEq

/-! ## queue.py — QueueManager

The manager owns an in-memory deque (`queue`) and the durable backing file
(`queue_file`, whose parsed contents we model as `file`).  `_save_queue` writes
`[vars(item) for item in queue]` as JSON; `_load_queue` rebuilds
`QueueItem(**item)` for each saved record. -/

/-- A record of the JSON file written by `_save_queue`: the `vars(item)`
dictionary of one QueueItem, field for field. -/
structure SavedItem where
  match_id : Int
  added_at : Rat
  retry_count : Nat
  last_retry : Option Rat
  priority : Int
deriving Repr, DecidableEq

/-- The `vars(item)` dictionary taken of one queue item by `_save_queue`. -/
def toSaved (x : QueueItem) : SavedItem :=
  ⟨x.match_id, x.added_at, x.retry_count, x.last_retry, x.priority⟩

/-- The `QueueItem(**item)` reconstruction performed by `_load_queue`. -/
def ofSaved (s : SavedItem) : QueueItem :=
  ⟨s.match_id, s.added_at, s.retry_count, s.last_retry, s.priority⟩

/-- Contents written to the queue file by `_save_queue`:
`json.dump([vars(item) for item in self.queue], f)`. -/
def save_queue_file (q : List QueueItem) : List SavedItem := q.map toSaved

/-- Queue reconstruction performed by `_load_queue`:
`deque(QueueItem(**item) for item in items)`. -/
def load_queue_file (s : List SavedItem) : List QueueItem := s.map ofSaved

/-- State of a `QueueManager`: the in-memory deque, the parsed contents of the
durable backing file, and the `max_retries` bound (default 3). -/
structure QueueManager where
  queue : List QueueItem
  file : List SavedItem
  max_retries : Nat
deriving Repr, DecidableEq

/-- The sort key used by `get_next_match`:
`key=lambda x: (x.priority, -x.retry_count)`, compared as a Python tuple,
i.e. lexicographically.  `keyLT a b` holds when `a`'s key is strictly below
`b`'s. -/
def keyLT (a b : QueueItem) : Bool :=
  decide (a.priority < b.priority ∨
    (a.priority = b.priority ∧ -(a.retry_count : Int) < -(b.retry_count : Int)))

/-- Insert an element into an already key-sorted list, after every element
whose key is not strictly greater — the placement a stable sort gives the
latest-arriving element. -/
def insertItem (x : QueueItem) : List QueueItem → List QueueItem
  | [] => [x]
  | y :: ys => if keyLT x y then x :: y :: ys else y :: insertItem x ys

/-- Python's `sorted(queue, key=lambda x: (x.priority, -x.retry_count))`:
a stable ascending sort by the tuple key.  Stable insertion sort computes the
same list: elements are processed in input order and each is placed after all
earlier elements with an equal or smaller key. -/
def pySorted (l : List QueueItem) : List QueueItem :=
  l.foldl (fun acc x => insertItem x acc) []

/-- The `_save_queue` call: replace the backing file's contents with the
serialized queue. -/
def QueueManager.save_queue (m : QueueManager) : QueueManager :=
  { m with file := save_queue_file m.queue }

/-- The `add_match` method: construct `QueueItem(match_id, added_at=time.time(),
priority=priority)`, append it, and `_save_queue`. -/
def QueueManager.add_match (m : QueueManager) (mid : Int) (now : Rat)
    (priority : Int) : QueueManager :=
  QueueManager.save_queue
    { m with queue := m.queue ++ [⟨mid, now, 0, none, priority⟩] }

/-- The `get_next_match` method: on an empty queue return None; otherwise
replace the queue by its key-sorted permutation and pop the leftmost item.
No `_save_queue` call occurs on this path. -/
def QueueManager.get_next_match (m : QueueManager) :
    Option QueueItem × QueueManager :=
  match pySorted m.queue with
  | [] => (none, m)
  | x :: rest => (some x, { m with queue := rest })

/-- Observable effect of one `retry_match` call: the new manager state, whether
`logger.warning` fired (the max-retries branch), and the value returned to the
caller — `None` on every path in the Python code, hence `Unit`. -/
structure RetryOutcome where
  manager : QueueManager
  warned : Bool
  returned : Unit
deriving Repr, DecidableEq

/-- The `retry_match` method: if `item.retry_count < max_retries`, increment
the counter, stamp `last_retry`, append the item and `_save_queue`; otherwise
log a warning and do nothing.  Both branches return `None`. -/
def QueueManager.retry_match (m : QueueManager) (item : QueueItem)
    (now : Rat) : RetryOutcome :=
  if item.retry_count < m.max_retries then
    { manager := QueueManager.save_queue
        { m with queue := m.queue ++
            [{ item with retry_count := item.retry_count + 1,
                         last_retry := some now }] },
      warned := false, returned := () }
  else
    { manager := m, warned := true, returned := () }

/-! ## Helper lemmas about the queue -/

theorem mem_insertItem (x y : QueueItem) (l : List QueueItem) :
    y ∈ insertItem x l ↔ y = x ∨ y ∈ l := by
  induction l with
  | nil => simp [insertItem]
  | cons z zs ih =>
      by_cases h : keyLT x z = true
      · simp [insertItem, h, List.mem_cons]
        try tauto
      · simp [insertItem, h, List.mem_cons, ih]
        try tauto

theorem mem_pySorted (l : List QueueItem) (y : QueueItem) :
    y ∈ pySorted l ↔ y ∈ l := by
  suffices h : ∀ acc : List QueueItem,
      y ∈ l.foldl (fun acc x => insertItem x acc) acc ↔ y ∈ acc ∨ y ∈ l by
    simpa [pySorted] using h []
  induction l with
  | nil => intro acc; simp
  | cons z zs ih =>
      intro acc
      simp only [List.foldl_cons, ih, mem_insertItem, List.mem_cons]
      tauto

/-- Whatever `get_next_match` returns is a member of the queue it was called
on. -/
theorem get_next_match_mem (m : QueueManager) (x : QueueItem)
    (h : (QueueManager.get_next_match m).1 = some x) : x ∈ m.queue := by
  unfold QueueManager.get_next_match at h
  rcases hs : pySorted m.queue with _ | ⟨z, rest⟩
  · rw [hs] at h; simp at h
  · rw [hs] at h
    simp only [Option.some.injEq] at h
    have : x ∈ pySorted m.queue := by rw [hs, ← h]; exact List.mem_cons_self _ _
    exact (mem_pySorted m.queue x).mp this

/-! ## filters.py — LastThreeMonthsFilter, main.py — filter_matches -/

/-- A candidate dictionary as seen by the filter: only the `start_time` key is
consulted, and it may be absent (`match.get('start_time', 0)`). -/
structure Candidate where
  start_time : Option Int
deriving Repr, DecidableEq

/-- LastThreeMonthsFilter.filter: with `current_time = int(time.time())` passed
as `now`, keep the candidate iff
`match.get('start_time', 0) >= now - 90 * 24 * 60 * 60`. -/
def lastThreeMonthsFilter (now : Int) (m : Candidate) : Bool :=
  decide (m.start_time.getD 0 ≥ now - 90 * 24 * 60 * 60)

/-- MatchObserver.filter_matches with its registered filter list
`[LastThreeMonthsFilter()]`: the list comprehension keeping candidates the
filter accepts. -/
def filter_matches (now : Int) (ms : List Candidate) : List Candidate :=
  ms.filter (fun m => lastThreeMonthsFilter now m)

/-! ## database.py — Database.store_match

The SQLite store is modelled as the two tables touched by `store_match`.  A
connection carries a committed snapshot and the pending transaction;
`cursor.execute(INSERT ...)` edits only the pending side, `conn.commit()`
publishes it, `conn.rollback()` discards it. -/

/-- One row of the `matches` table, column for column as bound by the INSERT in
`store_match` (`match_data` is the serialized JSON string or NULL). -/
structure MatchRow where
  match_id : Int
  start_time : Int
  duration : Int
  game_mode : Int
  game_mode_name : Option String
  lobby_type : Int
  lobby_type_name : Option String
  leagueid : Int
  radiant_win : Bool
  radiant_score : Int
  match_data : Option String
deriving Repr, DecidableEq

/-- One row of the `player_matches` table, column for column as bound by the
INSERT in `store_match`. -/
structure PlayerMatchRow where
  match_id : Int
  account_id : Int
  hero_id : Int
  player_slot : Int
  kills : Int
  deaths : Int
  assists : Int
  gold_per_min : Int
  xp_per_min : Int
  last_hits : Int
  denies : Int
deriving Repr, DecidableEq

/-- The visible contents of the store: the two tables `store_match` writes. -/
structure DBState where
  /-- the `matches` table (named `matches_tbl` here, `matches` being a Lean
  keyword) -/
  matches_tbl : List MatchRow
  /-- the `player_matches` table -/
  player_matches : List PlayerMatchRow
deriving Repr, DecidableEq

/-- A SQLite connection: the committed store plus the pending transaction. -/
structure Conn where
  committed : DBState
  pending : DBState
deriving Repr, DecidableEq

/-- Modelled from the spec: the schema file (`schema.sql`) is not among the
sources — only `database.py`, which executes it, is.  The spec states that
implementations enforce idempotency "via a uniqueness constraint on the
identifier", so inserting a row whose `match_id` is already present fails with
an integrity error. -/
def insertMatchRow (t : List MatchRow) (r : MatchRow) :
    Except String (List MatchRow) :=
  if t.any (fun x => x.match_id == r.match_id) then
    Except.error "UNIQUE constraint failed: matches.match_id"
  else
    Except.ok (t ++ [r])

/-- Insert into `player_matches`; `failOracle` abstracts the environment
(constraint violations, I/O errors) deciding whether this execute raises. -/
def insertPlayerMatchRow (failOracle : PlayerMatchRow → Bool)
    (t : List PlayerMatchRow) (r : PlayerMatchRow) :
    Except String (List PlayerMatchRow) :=
  if failOracle r then Except.error "player_matches insert failed"
  else Except.ok (t ++ [r])

/-- Execute the `matches` INSERT on a connection: only the pending state moves. -/
def Conn.execInsertMatch (c : Conn) (r : MatchRow) : Except String Conn :=
  match insertMatchRow c.pending.matches_tbl r with
  | Except.error e => Except.error e
  | Except.ok t => Except.ok { c with pending := { c.pending with matches_tbl := t } }

/-- Execute one `player_matches` INSERT on a connection. -/
def Conn.execInsertPlayerMatch (failOracle : PlayerMatchRow → Bool) (c : Conn)
    (r : PlayerMatchRow) : Except String Conn :=
  match insertPlayerMatchRow failOracle c.pending.player_matches r with
  | Except.error e => Except.error e
  | Except.ok t =>
      Except.ok { c with pending := { c.pending with player_matches := t } }

/-- `conn.commit()`: publish the pending transaction. -/
def Conn.commit (c : Conn) : Conn := ⟨c.pending, c.pending⟩

/-- `conn.rollback()`: discard the pending transaction. -/
def Conn.rollback (c : Conn) : Conn := ⟨c.committed, c.committed⟩

/-- The `for player_match in player_matches: cursor.execute(...)` loop; on a
raise it stops and hands back the connection at the point of failure. -/
def execInsertPlayerMatches (failOracle : PlayerMatchRow → Bool) :
    Conn → List PlayerMatchRow → Conn × Option String
  | c, [] => (c, none)
  | c, r :: rs =>
      match Conn.execInsertPlayerMatch failOracle c r with
      | Except.error e => (c, some e)
      | Except.ok c' => execInsertPlayerMatches failOracle c' rs

/-- Database.store_match: open a connection on the store, execute the `matches`
INSERT then every `player_matches` INSERT inside one try, `commit` on success;
on any exception `rollback` and re-raise.  The result is the store visible
afterwards together with the exception propagated to the caller, if any. -/
def store_match (db : DBState) (m : MatchRow) (pms : List PlayerMatchRow)
    (failOracle : PlayerMatchRow → Bool) : DBState × Option String :=
  match Conn.execInsertMatch ⟨db, db⟩ m with
  | Except.error e => ((Conn.rollback ⟨db, db⟩).committed, some e)
  | Except.ok c1 =>
      match execInsertPlayerMatches failOracle c1 pms with
      | (c2, some e) => ((Conn.rollback c2).committed, some e)
      | (c2, none) => ((Conn.commit c2).committed, none)

/-- Database.is_match_stored: `SELECT 1 FROM matches WHERE match_id = ?`. -/
def is_match_stored (db : DBState) (mid : Int) : Bool :=
  db.matches_tbl.any (fun x => x.match_id == mid)

/-! ## api.py — DotaAPI._rate_limit

`_rate_limit` reads `now = time.time()`; if `now - last_request_time` is below
`min_request_interval` it sleeps for the full `min_request_interval`, then (in
either case) sets `last_request_time = now` — the pre-sleep reading.  Each of
`get_player_info`, `get_player_matches` and `get_match_details` awaits
`_rate_limit()` before issuing its request, so a call arriving at time `now`
is issued at `now` plus the slept duration. -/

/-- Client state consulted by the pacing gate. -/
structure APIState where
  last_request_time : Rat
deriving Repr, DecidableEq

/-- `self.min_request_interval = 0.5  # seconds`. -/
def min_request_interval : Rat := 1 / 2

/-- One `_rate_limit()` call at wall-clock time `now`: the duration slept and
the state left behind (`last_request_time := now`, taken before the sleep). -/
def rate_limit (st : APIState) (now : Rat) : Rat × APIState :=
  if now - st.last_request_time < min_request_interval then
    (min_request_interval, ⟨now⟩)
  else
    (0, ⟨now⟩)

/-- The wall-clock time at which the request following the gate is issued:
arrival time plus the slept duration. -/
def issue_time (st : APIState) (now : Rat) : Rat :=
  now + (rate_limit st now).1

/-! ## main.py — MatchObserver.process_match and process_detail_queue -/

/-- Outcome of `api.get_match_details` as seen by `process_match`: either match
data, or one of the exceptions the client raises — `MatchNotFoundError` (404),
`RateLimitError` (429), or `DotaAPIError` for a network failure or a malformed
payload. -/
inductive FetchOutcome
  | ok (start_time : Int)
  | notFound
  | rateLimited
  | transient
  | malformed
deriving Repr, DecidableEq

/-- Observable effect of one `process_match` call: whether a match was stored,
whether an exception escaped to the caller, and which log line fired.  In the
Python code every failure path ends inside `process_match`'s own
`except MatchNotFoundError` / `except Exception` clauses, so nothing
re-raises. -/
structure ProcessResult where
  stored : Bool
  raised : Bool
  warned_not_found : Bool
  logged_error : Bool
deriving Repr, DecidableEq

/-- MatchObserver.process_match: return early if the match is stored; fetch the
details and store them; `except MatchNotFoundError` logs a warning and
`except Exception` logs an error — both swallow the exception.  A storage
failure (`store_match` re-raising after rollback) lands in the
`except Exception` clause too. -/
def process_match (already_stored : Bool) (fetch : FetchOutcome)
    (store_fails : Bool) : ProcessResult :=
  if already_stored then ⟨false, false, false, false⟩
  else
    match fetch with
    | FetchOutcome.ok _ =>
        if store_fails then ⟨false, false, false, true⟩
        else ⟨true, false, false, false⟩
    | FetchOutcome.notFound => ⟨false, false, true, false⟩
    | FetchOutcome.rateLimited => ⟨false, false, false, true⟩
    | FetchOutcome.transient => ⟨false, false, false, true⟩
    | FetchOutcome.malformed => ⟨false, false, false, true⟩

/-- One iteration of the `while True` loop in
MatchObserver.process_detail_queue: pop the next item; if `process_match`
raises, the `except Exception` handler calls `retry_match` on the popped item;
otherwise the loop just continues.  Returns the manager state after the
iteration and the `process_match` result (none when the queue was empty and
the loop broke). -/
def process_queue_step (m : QueueManager) (already_stored : Int → Bool)
    (fetch : Int → FetchOutcome) (store_fails : Bool) (now : Rat) :
    QueueManager × Option ProcessResult :=
  match QueueManager.get_next_match m with
  | (none, m') => (m', none)
  | (some item, m') =>
      let r := process_match (already_stored item.match_id)
        (fetch item.match_id) store_fails
      if r.raised then ((QueueManager.retry_match m' item now).manager, some r)
      else (m', some r)

/-! ## Helper lemmas about the store -/

/-- The player-match insert loop never touches the committed snapshot. -/
theorem execPMs_committed (f : PlayerMatchRow → Bool) (rs : List PlayerMatchRow) :
    ∀ c : Conn, (execInsertPlayerMatches f c rs).1.committed = c.committed := by
  induction rs with
  | nil => intro c; rfl
  | cons r rs ih =>
      intro c
      by_cases hf : f r = true
      · simp [execInsertPlayerMatches, Conn.execInsertPlayerMatch,
          insertPlayerMatchRow, hf]
      · simp [execInsertPlayerMatches, Conn.execInsertPlayerMatch,
          insertPlayerMatchRow, hf, ih]

/-- When the loop raises nothing, the pending transaction holds exactly the
old rows plus every new player-match row, and the matches table is untouched. -/
theorem execPMs_ok (f : PlayerMatchRow → Bool) (rs : List PlayerMatchRow) :
    ∀ c : Conn, (execInsertPlayerMatches f c rs).2 = none →
      (execInsertPlayerMatches f c rs).1.pending.matches_tbl = c.pending.matches_tbl
      ∧ (execInsertPlayerMatches f c rs).1.pending.player_matches
          = c.pending.player_matches ++ rs := by
  induction rs with
  | nil => intro c _; exact ⟨rfl, by simp [execInsertPlayerMatches]⟩
  | cons r rs ih =>
      intro c h
      by_cases hf : f r = true
      · exfalso
        simp [execInsertPlayerMatches, Conn.execInsertPlayerMatch,
          insertPlayerMatchRow, hf] at h
      · simp only [execInsertPlayerMatches, Conn.execInsertPlayerMatch,
          insertPlayerMatchRow, hf, Bool.false_eq_true, if_false] at h ⊢
        obtain ⟨h1, h2⟩ := ih _ h
        refine ⟨by rw [h1], ?_⟩
        rw [h2]
        simp

/-- If some row in the batch makes its insert raise, the loop raises. -/
theorem execPMs_fail (f : PlayerMatchRow → Bool) (rs : List PlayerMatchRow) :
    ∀ c : Conn, (∃ r ∈ rs, f r = true) →
      (execInsertPlayerMatches f c rs).2.isSome = true := by
  induction rs with
  | nil => intro c h; simp at h
  | cons r rs ih =>
      intro c h
      by_cases hf : f r = true
      · simp [execInsertPlayerMatches, Conn.execInsertPlayerMatch,
          insertPlayerMatchRow, hf]
      · rcases h with ⟨r', hr', hfr'⟩
        rcases List.mem_cons.mp hr' with h1 | h2
        · exact absurd (h1 ▸ hfr') hf
        · simp only [execInsertPlayerMatches, Conn.execInsertPlayerMatch,
            insertPlayerMatchRow, hf, Bool.false_eq_true, if_false]
          exact ih _ ⟨r', h2, hfr'⟩

/-- If no row in the batch makes its insert raise, the loop raises nothing. -/
theorem execPMs_all_ok (f : PlayerMatchRow → Bool) (rs : List PlayerMatchRow) :
    ∀ c : Conn, (∀ r ∈ rs, f r = false) →
      (execInsertPlayerMatches f c rs).2 = none := by
  induction rs with
  | nil => intro c _; rfl
  | cons r rs ih =>
      intro c h
      have hf : f r = false := h r (List.mem_cons_self _ _)
      simp only [execInsertPlayerMatches, Conn.execInsertPlayerMatch,
        insertPlayerMatchRow, hf, Bool.false_eq_true, if_false]
      exact ih _ (fun r' hr' => h r' (List.mem_cons_of_mem _ hr'))

/-- A write whose identifier is already stored fails on the uniqueness
constraint, rolls back, and re-raises; the visible store is unchanged. -/
theorem store_match_dup (db : DBState) (m : MatchRow) (pms : List PlayerMatchRow)
    (f : PlayerMatchRow → Bool) (hdup : is_match_stored db m.match_id = true) :
    store_match db m pms f
      = (db, some "UNIQUE constraint failed: matches.match_id") := by
  simp only [is_match_stored] at hdup
  simp [store_match, Conn.execInsertMatch, insertMatchRow, hdup, Conn.rollback]

/-- A write of a fresh identifier whose player-match inserts all succeed
commits every row and raises nothing. -/
theorem store_match_fresh (db : DBState) (m : MatchRow)
    (pms : List PlayerMatchRow) (hdup : is_match_stored db m.match_id = false) :
    store_match db m pms (fun _ => false)
      = (⟨db.matches_tbl ++ [m], db.player_matches ++ pms⟩, none) := by
  simp only [is_match_stored] at hdup
  have hc1 : Conn.execInsertMatch ⟨db, db⟩ m
      = Except.ok ⟨db, ⟨db.matches_tbl ++ [m], db.player_matches⟩⟩ := by
    simp [Conn.execInsertMatch, insertMatchRow, hdup]
  have hnone := execPMs_all_ok (fun _ => false) pms
    ⟨db, ⟨db.matches_tbl ++ [m], db.player_matches⟩⟩ (fun _ _ => rfl)
  have hok := execPMs_ok (fun _ => false) pms
    ⟨db, ⟨db.matches_tbl ++ [m], db.player_matches⟩⟩ hnone
  rcases hP : execInsertPlayerMatches (fun _ => false)
      ⟨db, ⟨db.matches_tbl ++ [m], db.player_matches⟩⟩ pms with ⟨c2, e⟩
  rw [hP] at hnone hok
  cases e with
  | some e => simp at hnone
  | none =>
      simp only [store_match, hc1, hP, Conn.commit]
      obtain ⟨h1, h2⟩ := hok
      simp only at h1 h2
      refine Prod.ext ?_ rfl
      show c2.pending = _
      cases hpend : c2.pending with
      | mk mt pt =>
          rw [hpend] at h1 h2
          simp only at h1 h2
          simp [h1, h2]

/-! ## Claim theorems -/

/-- C6.  Database.store_match is atomic: whenever the call raises — the
`matches` insert hitting the uniqueness constraint or any `player_matches`
insert failing — the transaction is rolled back and the visible store is
exactly the store before the call; when it raises nothing, the match row and
every player-match row are committed; and a failing player-match insert always
surfaces as a raised error, never as silent success. -/
theorem store_match_atomic (db : DBState) (m : MatchRow)
    (pms : List PlayerMatchRow) (f : PlayerMatchRow → Bool) :
    ((store_match db m pms f).2.isSome = true → (store_match db m pms f).1 = db)
    ∧ ((store_match db m pms f).2 = none →
        (store_match db m pms f).1.matches_tbl = db.matches_tbl ++ [m]
        ∧ (store_match db m pms f).1.player_matches = db.player_matches ++ pms)
    ∧ ((∃ r ∈ pms, f r = true) → (store_match db m pms f).2.isSome = true) := by
  by_cases hdup : db.matches_tbl.any (fun x => x.match_id == m.match_id) = true
  · have h := store_match_dup db m pms f (by simpa [is_match_stored] using hdup)
    rw [h]
    exact ⟨fun _ => rfl, fun hc => by simp at hc, fun _ => rfl⟩
  · have hc1 : Conn.execInsertMatch ⟨db, db⟩ m
        = Except.ok ⟨db, ⟨db.matches_tbl ++ [m], db.player_matches⟩⟩ := by
      simp [Conn.execInsertMatch, insertMatchRow, hdup]
    have hcom := execPMs_committed f pms
      ⟨db, ⟨db.matches_tbl ++ [m], db.player_matches⟩⟩
    rcases hP : execInsertPlayerMatches f
        ⟨db, ⟨db.matches_tbl ++ [m], db.player_matches⟩⟩ pms with ⟨c2, e⟩
    rw [hP] at hcom
    simp only at hcom
    cases e with
    | some e =>
        simp only [store_match, hc1, hP, Conn.rollback]
        refine ⟨fun _ => hcom, fun hc => by simp at hc, fun _ => rfl⟩
    | none =>
        have hok := execPMs_ok f pms
          ⟨db, ⟨db.matches_tbl ++ [m], db.player_matches⟩⟩ (by rw [hP])
        rw [hP] at hok
        obtain ⟨h1, h2⟩ := hok
        simp only at h1 h2
        simp only [store_match, hc1, hP, Conn.commit]
        refine ⟨fun hc => by simp at hc, fun _ => ⟨h1, h2⟩, fun hex => ?_⟩
        have := execPMs_fail f pms
          ⟨db, ⟨db.matches_tbl ++ [m], db.player_matches⟩⟩ hex
        rw [hP] at this
        simp at this

/-- A concrete match row used to instantiate the store theorems. -/
def sampleMatchRow : MatchRow :=
  ⟨7001, 1700000000, 1800, 22, none, 0, none, 0, true, 30, none⟩

/-- A concrete player-match row used to instantiate the store theorems. -/
def samplePlayerRow : PlayerMatchRow :=
  ⟨7001, 42, 5, 0, 3, 4, 5, 400, 500, 60, 2⟩

/-- C6 witness: with an oracle that makes the player-match insert raise, the
store visible after the failed call is the store before it. -/
theorem store_match_atomic_witness :
    (store_match ⟨[], []⟩ sampleMatchRow [samplePlayerRow] (fun _ => true)).1
      = ⟨[], []⟩ :=
  (store_match_atomic ⟨[], []⟩ sampleMatchRow [samplePlayerRow]
      (fun _ => true)).1
    ((store_match_atomic ⟨[], []⟩ sampleMatchRow [samplePlayerRow]
        (fun _ => true)).2.2
      ⟨samplePlayerRow, List.mem_cons_self _ _, rfl⟩)

/-- C2 counterexample: storing the same record a second time is not a silent
no-op — the second `store_match` call raises (the uniqueness violation is
rolled back and then re-raised to the caller). -/
theorem store_match_duplicate_raises_cex :
    (store_match
        (store_match ⟨[], []⟩ sampleMatchRow [samplePlayerRow]
          (fun _ => false)).1
        sampleMatchRow [samplePlayerRow] (fun _ => false)).2.isSome = true := by
  decide

/-- C2 (amended).  A first `store_match` of a fresh record commits exactly one
match row and one set of player-match rows; a second call with the identical
record fails on the uniqueness constraint, leaves the store exactly as the
first call left it — so no duplicate rows ever appear — but re-raises the
violation to the caller instead of treating it as a silent no-op success. -/
theorem store_match_idempotent_amended (m : MatchRow)
    (pms : List PlayerMatchRow) :
    (store_match ⟨[], []⟩ m pms (fun _ => false)).2 = none
    ∧ (store_match ⟨[], []⟩ m pms (fun _ => false)).1 = ⟨[m], pms⟩
    ∧ (store_match (store_match ⟨[], []⟩ m pms (fun _ => false)).1 m pms
        (fun _ => false)).1 = ⟨[m], pms⟩
    ∧ (store_match (store_match ⟨[], []⟩ m pms (fun _ => false)).1 m pms
        (fun _ => false)).2.isSome = true := by
  have h1 : store_match (⟨[], []⟩ : DBState) m pms (fun _ => false)
      = (⟨[m], pms⟩, none) := by
    simpa using store_match_fresh ⟨[], []⟩ m pms (by simp [is_match_stored])
  have h2 : store_match (⟨[m], pms⟩ : DBState) m pms (fun _ => false)
      = (⟨[m], pms⟩, some "UNIQUE constraint failed: matches.match_id") :=
    store_match_dup ⟨[m], pms⟩ m pms (fun _ => false)
      (by simp [is_match_stored])
  rw [h1]
  simp [h2]

/-- A job enqueued with priority 1 and no retries. -/
def jobA : QueueItem := ⟨101, 1, 0, none, 1⟩

/-- A job enqueued with priority 2 and no retries. -/
def jobB : QueueItem := ⟨102, 2, 0, none, 2⟩

/-- A job with priority 1 and one retry. -/
def jobC : QueueItem := ⟨103, 3, 1, none, 1⟩

/-- C1.  Evaluation of `get_next_match` at the claim's own example, priorities
[1, 2, 1] and retry counts [0, 0, 1]: successive calls return the
priority-1/retry-1 job, then the priority-1/retry-0 job, then the priority-2
job — the exact reverse of the claimed order.  The code sorts ascending by
`(priority, -retry_count)` and pops the front, so the lowest priority and,
within it, the most-retried job comes out first, contradicting the spec and
the code's own comments (models.py: priority "Higher = more priority";
main.py: new matches get priority 2 to be handled first). -/
theorem get_next_match_priority_inversion :
    ((⟨[jobA, jobB, jobC], [], 3⟩ : QueueManager).get_next_match).1 = some jobC
    ∧ (((⟨[jobA, jobB, jobC], [], 3⟩ :
          QueueManager).get_next_match).2.get_next_match).1 = some jobA
    ∧ ((((⟨[jobA, jobB, jobC], [], 3⟩ :
          QueueManager).get_next_match).2.get_next_match).2.get_next_match).1
        = some jobB := by
  decide

/-- C4 counterexample: `retry_match` returns `None` on both the drop path and
the requeue path, so the caller is not informed of the drop through a
Dropped-vs-Requeued return value; at max_retries 3, retrying an item with
retry_count 3 drops it (queue stays empty) while retrying a fresh item
requeues it, yet the two calls return the identical value. -/
theorem retry_match_return_value_cex :
    (QueueManager.retry_match ⟨[], [], 3⟩ ⟨7, 1, 3, none, 0⟩ 5).manager.queue = []
    ∧ (QueueManager.retry_match ⟨[], [], 3⟩ ⟨8, 1, 0, none, 0⟩ 5).manager.queue ≠ []
    ∧ (QueueManager.retry_match ⟨[], [], 3⟩ ⟨7, 1, 3, none, 0⟩ 5).returned
        = (QueueManager.retry_match ⟨[], [], 3⟩ ⟨8, 1, 0, none, 0⟩ 5).returned := by
  decide

/-- C4 (amended).  `retry_match` increments the retry counter and records the
retry timestamp when the counter is below max_retries (default 3); a job whose
counter has reached max_retries is dropped on the next failure: the queue is
left unchanged — so, the job no longer being in the queue, `get_next_match`
never returns it again — and the drop is reported through a warning log entry,
not through a return value (the method returns `None` on both paths). -/
theorem retry_match_amended (m : QueueManager) (item : QueueItem) (now : Rat) :
    (item.retry_count < m.max_retries →
      (QueueManager.retry_match m item now).manager.queue
          = m.queue ++ [{ item with retry_count := item.retry_count + 1,
                                    last_retry := some now }]
      ∧ (QueueManager.retry_match m item now).warned = false)
    ∧ (m.max_retries ≤ item.retry_count →
      (QueueManager.retry_match m item now).manager = m
      ∧ (QueueManager.retry_match m item now).warned = true
      ∧ (item ∉ m.queue →
          ((QueueManager.retry_match m item now).manager.get_next_match).1
            ≠ some item)) := by
  by_cases h : item.retry_count < m.max_retries
  · refine ⟨fun _ => ?_, fun h' => absurd h (not_lt.mpr h')⟩
    simp [QueueManager.retry_match, h, QueueManager.save_queue]
  · refine ⟨fun h' => absurd h' h, fun _ => ?_⟩
    have hM : (QueueManager.retry_match m item now).manager = m := by
      simp [QueueManager.retry_match, h]
    refine ⟨hM, by simp [QueueManager.retry_match, h], fun hnot hsome => ?_⟩
    rw [hM] at hsome
    exact hnot (get_next_match_mem m item hsome)

/-- C4 witness: a concrete item with retry_count 3 at max_retries 3 is
dropped — the manager state is unchanged. -/
theorem retry_match_amended_witness :
    (3 : Nat) ≤ 3
    ∧ (QueueManager.retry_match ⟨[], [], 3⟩ ⟨7, 1, 3, none, 0⟩ 5).manager
        = ⟨[], [], 3⟩ :=
  ⟨by decide,
   ((retry_match_amended ⟨[], [], 3⟩ ⟨7, 1, 3, none, 0⟩ 5).2 (by decide)).1⟩

/-- C5 counterexample: `get_next_match` mutates the queue without persisting —
starting from a manager whose file matches its single-item queue, one dequeue
empties the in-memory queue while the backing file still holds the old
contents, so the file does not reflect the pending work set as of the last
mutation. -/
theorem queue_persistence_cex :
    ((⟨[⟨7, 1, 0, none, 0⟩], save_queue_file [⟨7, 1, 0, none, 0⟩], 3⟩ :
        QueueManager).get_next_match).2.queue = []
    ∧ ((⟨[⟨7, 1, 0, none, 0⟩], save_queue_file [⟨7, 1, 0, none, 0⟩], 3⟩ :
        QueueManager).get_next_match).2.file
        ≠ save_queue_file
            ((⟨[⟨7, 1, 0, none, 0⟩], save_queue_file [⟨7, 1, 0, none, 0⟩], 3⟩ :
              QueueManager).get_next_match).2.queue := by
  decide

/-- C5 (amended).  `add_match` and a successful `retry_match` persist the full
queue contents to the backing file before returning, but `get_next_match`
leaves the file untouched while mutating the in-memory queue, so a restart
after a dequeue reloads the pre-dequeue work set (the dequeued job included)
rather than the work set as of the last mutation. -/
theorem queue_persistence_amended (m : QueueManager) (mid : Int) (now : Rat)
    (prio : Int) (item : QueueItem) :
    (QueueManager.add_match m mid now prio).file
        = save_queue_file (QueueManager.add_match m mid now prio).queue
    ∧ (item.retry_count < m.max_retries →
        (QueueManager.retry_match m item now).manager.file
          = save_queue_file (QueueManager.retry_match m item now).manager.queue)
    ∧ ((QueueManager.get_next_match m).2).file = m.file := by
  refine ⟨?_, fun h => ?_, ?_⟩
  · simp [QueueManager.add_match, QueueManager.save_queue]
  · simp [QueueManager.retry_match, h, QueueManager.save_queue]
  · unfold QueueManager.get_next_match
    rcases pySorted m.queue with _ | ⟨x, rest⟩ <;> rfl

/-- C5 witness: a concrete below-max retry persists the queue to the file. -/
theorem queue_persistence_amended_witness :
    (0 : Nat) < 3
    ∧ (QueueManager.retry_match ⟨[], [], 3⟩ ⟨8, 1, 0, none, 0⟩ 5).manager.file
        = save_queue_file
            (QueueManager.retry_match ⟨[], [], 3⟩ ⟨8, 1, 0, none, 0⟩ 5).manager.queue :=
  ⟨by decide,
   (queue_persistence_amended ⟨[], [], 3⟩ 0 5 0 ⟨8, 1, 0, none, 0⟩).2.1 (by decide)⟩

/-- C7.  Serializing the queue to the backing file and reconstructing from the
serialized state is the identity on queue contents: every job keeps its match
id, enqueue timestamp, retry counter, retry timestamp and priority, and the
dequeue ordering (the sorted view `get_next_match` pops from) is unchanged. -/
theorem queue_save_load_roundtrip (q : List QueueItem) :
    load_queue_file (save_queue_file q) = q
    ∧ pySorted (load_queue_file (save_queue_file q)) = pySorted q := by
  have h : load_queue_file (save_queue_file q) = q := by
    induction q with
    | nil => rfl
    | cons x xs ih =>
        simp only [load_queue_file, save_queue_file, List.map_cons] at ih ⊢
        rw [ih]
        rfl
  exact ⟨h, by rw [h]⟩

/-- C3.  Evaluation of one draining iteration at each failure mode, starting
from a single-job queue (match 42, no retries): whether the detail fetch
raises a transient `DotaAPIError`, a `RateLimitError`, a malformed-payload
`DotaAPIError`, or the storage write fails and `store_match` re-raises, the
exception is swallowed inside `process_match` (`raised = false`, only
`logged_error` fires), so `process_detail_queue`'s requeue handler never runs:
the popped job is gone from the queue and was never passed to `retry_match`.
The claim — that the failure propagates and the job is requeued — fails on
every one of these inputs. -/
theorem process_queue_drops_failed_job :
    process_queue_step ⟨[⟨42, 1, 0, none, 0⟩], save_queue_file [⟨42, 1, 0, none, 0⟩], 3⟩
        (fun _ => false) (fun _ => FetchOutcome.transient) false 2
      = (⟨[], save_queue_file [⟨42, 1, 0, none, 0⟩], 3⟩,
         some ⟨false, false, false, true⟩)
    ∧ process_queue_step ⟨[⟨42, 1, 0, none, 0⟩], save_queue_file [⟨42, 1, 0, none, 0⟩], 3⟩
        (fun _ => false) (fun _ => FetchOutcome.rateLimited) false 2
      = (⟨[], save_queue_file [⟨42, 1, 0, none, 0⟩], 3⟩,
         some ⟨false, false, false, true⟩)
    ∧ process_queue_step ⟨[⟨42, 1, 0, none, 0⟩], save_queue_file [⟨42, 1, 0, none, 0⟩], 3⟩
        (fun _ => false) (fun _ => FetchOutcome.malformed) false 2
      = (⟨[], save_queue_file [⟨42, 1, 0, none, 0⟩], 3⟩,
         some ⟨false, false, false, true⟩)
    ∧ process_queue_step ⟨[⟨42, 1, 0, none, 0⟩], save_queue_file [⟨42, 1, 0, none, 0⟩], 3⟩
        (fun _ => false) (fun _ => FetchOutcome.ok 1700000000) true 2
      = (⟨[], save_queue_file [⟨42, 1, 0, none, 0⟩], 3⟩,
         some ⟨false, false, false, true⟩) := by
  decide

/-- C8.  The recency filter keeps a candidate exactly when its start timestamp
(defaulting to 0 when absent) is at least `now - 90 days`; in particular a
candidate 91 days old is excluded and one 89 days old is included, and
`filter_matches` keeps exactly the candidates the filter accepts. -/
theorem recency_filter_boundary (now : Int) (m : Candidate) :
    (lastThreeMonthsFilter now m = true
        ↔ now - 90 * 24 * 60 * 60 ≤ m.start_time.getD 0)
    ∧ lastThreeMonthsFilter now ⟨some (now - 91 * 24 * 60 * 60)⟩ = false
    ∧ lastThreeMonthsFilter now ⟨some (now - 89 * 24 * 60 * 60)⟩ = true
    ∧ ∀ ms : List Candidate, ∀ x : Candidate,
        (x ∈ filter_matches now ms
          ↔ x ∈ ms ∧ lastThreeMonthsFilter now x = true) := by
  refine ⟨?_, ?_, ?_, ?_⟩
  · simp [lastThreeMonthsFilter, ge_iff_le]
  · simp only [lastThreeMonthsFilter, Option.getD_some, ge_iff_le,
      decide_eq_false_iff_not, not_le]
    omega
  · simp only [lastThreeMonthsFilter, Option.getD_some, ge_iff_le,
      decide_eq_true_eq]
    omega
  · intro ms x
    simp [filter_matches, List.mem_filter]

/-- C8 witness: at `now` equal to exactly 90 days, timestamp 0 is on the kept
side of the boundary. -/
theorem recency_filter_boundary_witness :
    lastThreeMonthsFilter 7776000 ⟨some 0⟩ = true :=
  (recency_filter_boundary 7776000 ⟨some 0⟩).1.mpr (by decide)

/-- C10.  A candidate dictionary lacking a start_time field is read as
timestamp 0 by `match.get('start_time', 0)`; whenever the current time is past
the 90-day epoch offset, the filter rejects it and `filter_matches` never
passes it on to be enqueued — no lookup error occurs. -/
theorem missing_start_time_excluded (now : Int) (ms : List Candidate)
    (m : Candidate) (hnow : 90 * 24 * 60 * 60 < now)
    (hm : m.start_time = none) :
    m.start_time.getD 0 = 0
    ∧ lastThreeMonthsFilter now m = false
    ∧ m ∉ filter_matches now ms := by
  have h0 : m.start_time.getD 0 = 0 := by rw [hm]; rfl
  have hf : lastThreeMonthsFilter now m = false := by
    simp only [lastThreeMonthsFilter, h0, ge_iff_le, decide_eq_false_iff_not,
      not_le]
    omega
  refine ⟨h0, hf, ?_⟩
  simp [filter_matches, List.mem_filter, hf]

/-- C10 witness: one second past the 90-day offset, a candidate with no
start_time is filtered out. -/
theorem missing_start_time_excluded_witness :
    (90 * 24 * 60 * 60 : Int) < 7776001
    ∧ lastThreeMonthsFilter 7776001 ⟨none⟩ = false :=
  ⟨by decide,
   (missing_start_time_excluded 7776001 [⟨none⟩] ⟨none⟩ (by decide) rfl).2.1⟩

/-- C9 counterexample: the pacing gate does not keep outbound calls a minimum
interval apart.  With the gate at 0, a call arriving at 0.3 sleeps 0.5 and is
issued at 0.8, but the gate records 0.3 (the pre-sleep reading); a next call
arriving at 0.9 — after the previous one was issued — sees an elapsed 0.6,
does not sleep, and is issued at 0.9, only 0.1 after the previous call. -/
theorem rate_limit_spacing_cex :
    issue_time ⟨0⟩ (3 / 10) ≤ 9 / 10
    ∧ issue_time (rate_limit ⟨0⟩ (3 / 10)).2 (9 / 10)
        - issue_time ⟨0⟩ (3 / 10) < min_request_interval := by
  norm_num [issue_time, rate_limit, min_request_interval]

/-- C9 (amended).  Every outbound call (player info, player matches, match
details) first consults the pacing gate; assuming time moves forward, the call
is issued no earlier than the minimum interval after the gate's recorded
timestamp — when less than the interval has elapsed since that timestamp the
caller sleeps the full interval, otherwise it does not sleep — and the gate
timestamp is updated on every call attempt regardless of outcome; however, the
update records the pre-sleep consultation time, so (per the counterexample)
two calls can still be issued less than the minimum interval apart. -/
theorem rate_limit_amended (st : APIState) (now : Rat)
    (h : st.last_request_time ≤ now) :
    st.last_request_time + min_request_interval ≤ issue_time st now
    ∧ (rate_limit st now).2.last_request_time = now
    ∧ (min_request_interval ≤ now - st.last_request_time →
        (rate_limit st now).1 = 0) := by
  unfold issue_time rate_limit
  by_cases hc : now - st.last_request_time < min_request_interval
  · rw [if_pos hc]
    refine ⟨?_, rfl, fun h' => absurd hc (not_lt.mpr h')⟩
    show st.last_request_time + min_request_interval ≤ now + min_request_interval
    linarith
  · rw [if_neg hc]
    refine ⟨?_, rfl, fun _ => rfl⟩
    show st.last_request_time + min_request_interval ≤ now + 0
    have h2 : min_request_interval ≤ now - st.last_request_time := not_lt.mp hc
    linarith

/-- C9 witness: at gate time 0 and arrival 0, the gate is consulted and
updated. -/
theorem rate_limit_amended_witness :
    (0 : Rat) ≤ 0 ∧ (rate_limit ⟨0⟩ 0).2.last_request_time = 0 :=
  ⟨le_refl 0, (rate_limit_amended ⟨0⟩ 0 (le_refl 0)).2.1⟩

end Observer
